import Mathlib

/-!
Shallow embedding of `src/client/src/lib/spaced-repetition.ts`
(`SpacedRepetitionScheduler`), a SuperMemo SM-2 style scheduler.

Modelling conventions:
* JavaScript `number` values (intervals, ease factors, mastery levels,
  qualities, times) are modelled as exact rationals `ℚ`.
* `Date` values are modelled as rational day counts: `addDays d n = d + n`,
  and the millisecond difference `(now - next) / (1000*60*60*24)` in
  `getReviewPriority` becomes a plain difference of day counts.
* `Math.round` is `jsRound q = ⌊q + 1/2⌋` (JS rounds halves toward +∞).
* `Math.floor` is `⌊·⌋`; `Math.max`/`Math.min` are `max`/`min`.
* `repetitions` is a `number` counter; it is modelled as `ℤ`.
* The optional `responseTime` is `Option ℚ`; the JS truthiness test
  `if (responseTime)` is false for `undefined` and for `0`, which the
  embedding reflects by skipping the adjustment when the value is `0`.
-/

namespace SpacedRepetition

/-- JS `Math.round`: nearest integer, halves rounded toward `+∞`. -/
def jsRound (q : ℚ) : ℤ := ⌊q + 1/2⌋

/-- `interface ReviewSchedule` from `spaced-repetition.ts`. -/
structure ReviewSchedule where
  nextReviewDate : ℚ
  interval : ℚ
  easeFactor : ℚ
  repetitions : ℤ
deriving Repr, DecidableEq

/-- `interface ReviewResult` from `spaced-repetition.ts`. -/
structure ReviewResult where
  quality : ℚ
  responseTime : Option ℚ
  isCorrect : Bool
deriving Repr, DecidableEq

/-- `SpacedRepetitionScheduler.MIN_EASE_FACTOR = 1.3`. -/
def MIN_EASE_FACTOR : ℚ := 13/10

/-- `SpacedRepetitionScheduler.INITIAL_EASE_FACTOR = 2.5`. -/
def INITIAL_EASE_FACTOR : ℚ := 5/2

/-- `SpacedRepetitionScheduler.INITIAL_INTERVAL = 1`. -/
def INITIAL_INTERVAL : ℚ := 1

/-- `SpacedRepetitionScheduler.addDays` on day-count dates. -/
def addDays (date : ℚ) (days : ℚ) : ℚ := date + days

/-- `SpacedRepetitionScheduler.calculateNextReview`, with the current date
(`new Date()`) passed explicitly as `today`. -/
def calculateNextReview (today : ℚ) (currentSchedule : Option ReviewSchedule)
    (reviewResult : ReviewResult) : ReviewSchedule :=
  match currentSchedule with
  | none =>
      { nextReviewDate := addDays today INITIAL_INTERVAL
        interval := INITIAL_INTERVAL
        easeFactor := INITIAL_EASE_FACTOR
        repetitions := if reviewResult.isCorrect then 1 else 0 }
  | some s =>
      if reviewResult.quality < 3 ∨ reviewResult.isCorrect = false then
        { nextReviewDate := addDays today 1
          interval := 1
          easeFactor := s.easeFactor
          repetitions := 0 }
      else
        let repetitions : ℤ := s.repetitions + 1
        let interval : ℚ :=
          if repetitions = 1 then 1
          else if repetitions = 2 then 6
          else ((jsRound (s.interval * s.easeFactor) : ℤ) : ℚ)
        let easeFactor : ℚ :=
          max (s.easeFactor +
                (1/10 - (5 - reviewResult.quality) *
                  (2/25 + (5 - reviewResult.quality) * (1/50))))
              MIN_EASE_FACTOR
        { nextReviewDate := addDays today interval
          interval := interval
          easeFactor := easeFactor
          repetitions := repetitions }

/-- `SpacedRepetitionScheduler.calculateQuality`. The result of the source
function is always produced by integer-valued expressions, so the embedding
returns `ℤ`. -/
def calculateQuality (masteryLevel : ℚ) (isCorrect : Bool)
    (responseTime : Option ℚ) : ℤ :=
  if isCorrect = false then
    if masteryLevel < 20 then 0 else if masteryLevel < 50 then 1 else 2
  else
    let q0 : ℤ := ⌊masteryLevel / 20⌋ + 1
    let q1 : ℤ :=
      match responseTime with
      | none => q0
      | some t =>
          if t = 0 then q0
          else if t < 3000 then min 5 (q0 + 1)
          else if t > 10000 then max 1 (q0 - 1)
          else q0
    max 0 (min 5 q1)

/-- `SpacedRepetitionScheduler.getReviewPriority`, with the current date
(`new Date()`) passed explicitly as `now` (a day count). -/
def getReviewPriority (now : ℚ) (schedule : Option ReviewSchedule)
    (masteryLevel : ℚ) : ℚ :=
  match schedule with
  | none => 100
  | some s =>
      let daysOverdue : ℚ := max 0 (now - s.nextReviewDate)
      min 50 (daysOverdue * 10)
        + (100 - masteryLevel) * (3/10)
        + max 0 (20 - (s.repetitions : ℚ) * 2)

/-- Trajectory of schedules obtained by feeding each returned schedule back
as the prior schedule of the next `calculateNextReview` call; each step
supplies its own current date and review result. -/
def runSchedules : Option ReviewSchedule → List (ℚ × ReviewResult) → List ReviewSchedule
  | _, [] => []
  | cur, (t, r) :: rest =>
      let s := calculateNextReview t cur r
      s :: runSchedules (some s) rest

/-- Unfolding of the initialization branch of `calculateNextReview`. -/
theorem calcNext_init (today : ℚ) (r : ReviewResult) :
    calculateNextReview today none r =
      { nextReviewDate := today + 1, interval := 1, easeFactor := 5/2,
        repetitions := if r.isCorrect then 1 else 0 } := by
  simp only [calculateNextReview, addDays, INITIAL_INTERVAL, INITIAL_EASE_FACTOR]

/-- Unfolding of the failure branch of `calculateNextReview`. -/
theorem calcNext_failure (today : ℚ) (s : ReviewSchedule) (r : ReviewResult)
    (h : r.quality < 3 ∨ r.isCorrect = false) :
    calculateNextReview today (some s) r =
      { nextReviewDate := today + 1, interval := 1, easeFactor := s.easeFactor,
        repetitions := 0 } := by
  simp only [calculateNextReview, addDays, if_pos h]

/-- Unfolding of the success branch of `calculateNextReview`. -/
theorem calcNext_success (today : ℚ) (s : ReviewSchedule) (r : ReviewResult)
    (hq : 3 ≤ r.quality) (hc : r.isCorrect = true) :
    calculateNextReview today (some s) r =
      { nextReviewDate := today +
          (if s.repetitions + 1 = 1 then (1 : ℚ)
           else if s.repetitions + 1 = 2 then 6
           else ((jsRound (s.interval * s.easeFactor) : ℤ) : ℚ))
        interval :=
          (if s.repetitions + 1 = 1 then (1 : ℚ)
           else if s.repetitions + 1 = 2 then 6
           else ((jsRound (s.interval * s.easeFactor) : ℤ) : ℚ))
        easeFactor :=
          max (s.easeFactor +
                (1/10 - (5 - r.quality) * (2/25 + (5 - r.quality) * (1/50))))
              (13/10)
        repetitions := s.repetitions + 1 } := by
  have hguard : ¬(r.quality < 3 ∨ r.isCorrect = false) := by
    rintro (h | h)
    · exact absurd hq (not_le.mpr h)
    · rw [hc] at h; exact Bool.noConfusion h
  simp only [calculateNextReview, addDays, MIN_EASE_FACTOR, if_neg hguard]

/-- Unfolding of `getReviewPriority` on a present schedule. -/
theorem getReviewPriority_some (now : ℚ) (s : ReviewSchedule) (m : ℚ) :
    getReviewPriority now (some s) m =
      min 50 (max 0 (now - s.nextReviewDate) * 10)
        + (100 - m) * (3/10)
        + max 0 (20 - (s.repetitions : ℚ) * 2) := rfl

/-- Claim C1: on a successful review (`quality ≥ 3` and `isCorrect`) of a
word with a prior schedule, repetitions increment, the interval is 1 / 6 /
`round(interval * easeFactor)` according to the new repetition count, and
the ease factor becomes `max(1.3, ease + (0.1 - (5-q)(0.08 + (5-q)·0.02)))`
with no upper clamp. -/
theorem success_update (today : ℚ) (s : ReviewSchedule) (r : ReviewResult)
    (hq : 3 ≤ r.quality) (hc : r.isCorrect = true) :
    (calculateNextReview today (some s) r).repetitions = s.repetitions + 1 ∧
    (s.repetitions + 1 = 1 → (calculateNextReview today (some s) r).interval = 1) ∧
    (s.repetitions + 1 = 2 → (calculateNextReview today (some s) r).interval = 6) ∧
    (3 ≤ s.repetitions + 1 →
      (calculateNextReview today (some s) r).interval =
        ((jsRound (s.interval * s.easeFactor) : ℤ) : ℚ)) ∧
    (calculateNextReview today (some s) r).easeFactor =
      max ((13 : ℚ)/10)
        (s.easeFactor + (1/10 - (5 - r.quality) * (2/25 + (5 - r.quality) * (1/50)))) := by
  rw [calcNext_success today s r hq hc]
  refine ⟨rfl, fun h1 => ?_, fun h2 => ?_, fun h3 => ?_, max_comm _ _⟩
  · simp only [if_pos h1]
  · have h1 : s.repetitions + 1 ≠ 1 := by omega
    simp only [if_neg h1, if_pos h2]
  · have h1 : s.repetitions + 1 ≠ 1 := by omega
    have h2 : s.repetitions + 1 ≠ 2 := by omega
    simp only [if_neg h1, if_neg h2]

/-- Witness for C1 at schedule `(interval 6, ease 2.5, repetitions 2)` and a
quality-5 correct answer. -/
theorem success_update_witness :
    (calculateNextReview 0 (some ⟨0, 6, 5/2, 2⟩) ⟨5, none, true⟩).repetitions = 2 + 1 ∧
    (calculateNextReview 0 (some ⟨0, 6, 5/2, 2⟩) ⟨5, none, true⟩).interval =
      ((jsRound ((6 : ℚ) * (5/2)) : ℤ) : ℚ) ∧
    (calculateNextReview 0 (some ⟨0, 6, 5/2, 2⟩) ⟨5, none, true⟩).easeFactor =
      max ((13 : ℚ)/10) ((5 : ℚ)/2 + (1/10 - (5 - 5) * (2/25 + (5 - 5) * (1/50)))) := by
  have h := success_update 0 ⟨0, 6, 5/2, 2⟩ ⟨5, none, true⟩
    (by show (3 : ℚ) ≤ 5; norm_num) rfl
  exact ⟨h.1, h.2.2.2.1 (by show (3 : ℤ) ≤ 2 + 1; omega), h.2.2.2.2⟩

/-- Claim C2: a failed review (`quality < 3` or `isCorrect = false`) of a
word with a prior schedule resets repetitions to 0 and the interval to 1,
leaving the ease factor unchanged. -/
theorem failure_resets (today : ℚ) (s : ReviewSchedule) (r : ReviewResult)
    (h : r.quality < 3 ∨ r.isCorrect = false) :
    (calculateNextReview today (some s) r).repetitions = 0 ∧
    (calculateNextReview today (some s) r).interval = 1 ∧
    (calculateNextReview today (some s) r).easeFactor = s.easeFactor := by
  rw [calcNext_failure today s r h]
  exact ⟨rfl, rfl, rfl⟩

/-- Witness for C2 at schedule `(interval 15, ease 2.6, repetitions 3)` and
a quality-1 incorrect answer. -/
theorem failure_resets_witness :
    (calculateNextReview 0 (some ⟨0, 15, 13/5, 3⟩) ⟨1, none, false⟩).repetitions = 0 ∧
    (calculateNextReview 0 (some ⟨0, 15, 13/5, 3⟩) ⟨1, none, false⟩).interval = 1 ∧
    (calculateNextReview 0 (some ⟨0, 15, 13/5, 3⟩) ⟨1, none, false⟩).easeFactor =
      (⟨0, 15, 13/5, 3⟩ : ReviewSchedule).easeFactor :=
  failure_resets 0 ⟨0, 15, 13/5, 3⟩ ⟨1, none, false⟩ (Or.inr rfl)

/-- Claim C3: with no prior schedule, any review result yields interval 1,
ease factor 2.5, next review one day from today, and repetitions 1 when
correct, 0 otherwise. -/
theorem initialization (today : ℚ) (r : ReviewResult) :
    calculateNextReview today none r =
      { nextReviewDate := today + 1, interval := 1, easeFactor := 5/2,
        repetitions := if r.isCorrect then 1 else 0 } :=
  calcNext_init today r

/-- One `calculateNextReview` step preserves the 1.3 ease floor. -/
theorem easeFactor_step (today : ℚ) (cur : Option ReviewSchedule) (r : ReviewResult)
    (h : ∀ s, cur = some s → (13 : ℚ)/10 ≤ s.easeFactor) :
    (13 : ℚ)/10 ≤ (calculateNextReview today cur r).easeFactor := by
  match cur with
  | none =>
      rw [calcNext_init]
      norm_num
  | some s =>
      by_cases hg : r.quality < 3 ∨ r.isCorrect = false
      · rw [calcNext_failure today s r hg]
        exact h s rfl
      · push_neg at hg
        rw [calcNext_success today s r hg.1 (by simpa using hg.2)]
        exact le_max_right _ _

/-- Every schedule on a trajectory whose starting point satisfies the ease
floor satisfies the ease floor. -/
theorem runSchedules_ease : ∀ (steps : List (ℚ × ReviewResult)) (cur : Option ReviewSchedule),
    (∀ s, cur = some s → (13 : ℚ)/10 ≤ s.easeFactor) →
    ∀ s ∈ runSchedules cur steps, (13 : ℚ)/10 ≤ s.easeFactor
  | [], _, _, s, hs => by simp [runSchedules] at hs
  | (t, r) :: rest, cur, hcur, s, hs => by
      simp only [runSchedules] at hs
      rcases List.mem_cons.mp hs with h | h
      · exact h ▸ easeFactor_step t cur r hcur
      · exact runSchedules_ease rest (some (calculateNextReview t cur r))
          (fun s2 h2 => Option.some_inj.mp h2 ▸ easeFactor_step t cur r hcur) s h

/-- Claim C4: along every trajectory that starts from a null schedule and
feeds each returned schedule back as the next prior schedule, every
returned schedule has ease factor at least 1.3. -/
theorem ease_floor_invariant (steps : List (ℚ × ReviewResult)) (s : ReviewSchedule)
    (hs : s ∈ runSchedules none steps) : (13 : ℚ)/10 ≤ s.easeFactor :=
  runSchedules_ease steps none (fun _ h => Option.noConfusion h) s hs

/-- Witness for C4 on the one-step trajectory of a failed first review. -/
theorem ease_floor_invariant_witness :
    (⟨1, 1, 5/2, 0⟩ : ReviewSchedule) ∈
      runSchedules none [((0 : ℚ), ⟨1, none, false⟩)] ∧
    (13 : ℚ)/10 ≤ (⟨1, 1, 5/2, 0⟩ : ReviewSchedule).easeFactor := by
  have hmem : (⟨1, 1, 5/2, 0⟩ : ReviewSchedule) ∈
      runSchedules none [((0 : ℚ), ⟨1, none, false⟩)] := by
    simp only [runSchedules, List.mem_cons, List.not_mem_nil, or_false]
    rw [calcNext_init]
    norm_num
  exact ⟨hmem, ease_floor_invariant [((0 : ℚ), ⟨1, none, false⟩)] ⟨1, 1, 5/2, 0⟩ hmem⟩

/-- Counterexample for C5: `calculateNextReview` does not clamp an
out-of-range quality; at quality 6 the returned schedule differs from the
quality-5 one (ease 2.66 versus 2.6). -/
theorem quality_clamp_counterexample :
    calculateNextReview 0 (some ⟨0, 1, 5/2, 2⟩) ⟨6, none, true⟩
      ≠ calculateNextReview 0 (some ⟨0, 1, 5/2, 2⟩) ⟨5, none, true⟩ := by
  have h6 : (calculateNextReview 0 (some ⟨0, 1, 5/2, 2⟩) ⟨6, none, true⟩).easeFactor
      = 133/50 := by
    simp only [calculateNextReview, jsRound, addDays, MIN_EASE_FACTOR]
    norm_num
  have h5 : (calculateNextReview 0 (some ⟨0, 1, 5/2, 2⟩) ⟨5, none, true⟩).easeFactor
      = 13/5 := by
    simp only [calculateNextReview, jsRound, addDays, MIN_EASE_FACTOR]
    norm_num
  intro h
  rw [h, h5] at h6
  norm_num at h6

/-- Amended C5: no clamp is applied to quality — the ease update uses the
raw out-of-range value, and at quality 6 the pre-floor adjustment is
`+0.16 = 4/25`, exceeding the `+0.1` that quality 5 would give. -/
theorem quality_above_five_unclamped (today : ℚ) (s : ReviewSchedule) (r : ReviewResult)
    (hq : 5 < r.quality) (hc : r.isCorrect = true) :
    (calculateNextReview today (some s) r).easeFactor =
      max ((13 : ℚ)/10)
        (s.easeFactor + (1/10 - (5 - r.quality) * (2/25 + (5 - r.quality) * (1/50)))) ∧
    (r.quality = 6 →
      (calculateNextReview today (some s) r).easeFactor =
        max ((13 : ℚ)/10) (s.easeFactor + 4/25)) := by
  rw [calcNext_success today s r (by linarith) hc]
  constructor
  · exact max_comm _ _
  · intro h6
    rw [h6]
    norm_num [max_comm]

/-- Witness for the amended C5 at quality 6 over ease 2.5. -/
theorem quality_above_five_unclamped_witness :
    (calculateNextReview 0 (some ⟨0, 1, 5/2, 2⟩) ⟨6, none, true⟩).easeFactor =
      max ((13 : ℚ)/10)
        ((5 : ℚ)/2 + (1/10 - (5 - 6) * (2/25 + (5 - 6) * (1/50)))) ∧
    (calculateNextReview 0 (some ⟨0, 1, 5/2, 2⟩) ⟨6, none, true⟩).easeFactor =
      max ((13 : ℚ)/10) ((5 : ℚ)/2 + 4/25) := by
  have h := quality_above_five_unclamped 0 ⟨0, 1, 5/2, 2⟩ ⟨6, none, true⟩
    (by show (5 : ℚ) < 6; norm_num) rfl
  exact ⟨h.1, h.2 rfl⟩

/-- Claim C6: `calculateNextReview` is total — every input (null schedule
included, quality unrestricted) produces a `ReviewSchedule`, and a null
prior schedule routes to the initialization branch rather than failing. -/
theorem totality (today : ℚ) (cur : Option ReviewSchedule) (r : ReviewResult) :
    (∃ out : ReviewSchedule, calculateNextReview today cur r = out) ∧
    (cur = none → calculateNextReview today cur r =
      { nextReviewDate := today + 1, interval := 1, easeFactor := 5/2,
        repetitions := if r.isCorrect then 1 else 0 }) := by
  refine ⟨⟨_, rfl⟩, fun h => ?_⟩
  subst h
  exact calcNext_init today r

/-- Witness for C6 at a null schedule and a quality-3 correct answer. -/
theorem totality_witness :
    (∃ out : ReviewSchedule, calculateNextReview 0 none ⟨3, none, true⟩ = out) ∧
    calculateNextReview 0 none ⟨3, none, true⟩ =
      { nextReviewDate := (0 : ℚ) + 1, interval := 1, easeFactor := 5/2,
        repetitions := 1 } := by
  have h := totality 0 none ⟨3, none, true⟩
  exact ⟨h.1, h.2 rfl⟩

/-- Claim C7: among overdue schedules with equal mastery and repetitions
whose overdue times are below the 5-day cap, strictly more days overdue
gives strictly higher review priority. -/
theorem priority_strict_mono (now m : ℚ) (s1 s2 : ReviewSchedule)
    (hrep : s1.repetitions = s2.repetitions)
    (h2o : 0 ≤ now - s2.nextReviewDate)
    (h1cap : now - s1.nextReviewDate < 5)
    (h2cap : now - s2.nextReviewDate < 5)
    (hlt : now - s2.nextReviewDate < now - s1.nextReviewDate) :
    getReviewPriority now (some s2) m < getReviewPriority now (some s1) m := by
  have h1o : 0 ≤ now - s1.nextReviewDate := h2o.trans hlt.le
  rw [getReviewPriority_some, getReviewPriority_some, hrep,
    max_eq_right h1o, max_eq_right h2o,
    min_eq_right (by linarith), min_eq_right (by linarith)]
  linarith

/-- Witness for C7: 2 days overdue outranks 1 day overdue. -/
theorem priority_strict_mono_witness :
    getReviewPriority 2 (some ⟨1, 6, 5/2, 1⟩) 50
      < getReviewPriority 2 (some ⟨0, 6, 5/2, 1⟩) 50 :=
  priority_strict_mono 2 50 ⟨0, 6, 5/2, 1⟩ ⟨1, 6, 5/2, 1⟩ rfl
    (by show (0 : ℚ) ≤ 2 - 1; norm_num)
    (by show (2 : ℚ) - 0 < 5; norm_num)
    (by show (2 : ℚ) - 1 < 5; norm_num)
    (by show (2 : ℚ) - 1 < 2 - 0; norm_num)

/-- Claim C8: a null schedule gets priority exactly 100, and for any
schedule with nonnegative repetitions and mastery in `[0, 100]` the
priority never exceeds 100. -/
theorem priority_bounds (now m : ℚ) (s : ReviewSchedule)
    (hrep : 0 ≤ s.repetitions) (hm0 : 0 ≤ m) (hm100 : m ≤ 100) :
    getReviewPriority now none m = 100 ∧ getReviewPriority now (some s) m ≤ 100 := by
  refine ⟨rfl, ?_⟩
  rw [getReviewPriority_some]
  have h1 : min 50 (max 0 (now - s.nextReviewDate) * 10) ≤ 50 := min_le_left _ _
  have h2 : (100 - m) * (3/10) ≤ 30 := by linarith
  have hrq : (0 : ℚ) ≤ (s.repetitions : ℚ) := by exact_mod_cast hrep
  have h3 : max 0 (20 - (s.repetitions : ℚ) * 2) ≤ 20 := by
    apply max_le <;> linarith
  linarith

/-- Witness for C8 at mastery 50 and a fresh schedule. -/
theorem priority_bounds_witness :
    getReviewPriority 3 none 50 = 100 ∧
    getReviewPriority 3 (some ⟨0, 1, 5/2, 0⟩) 50 ≤ 100 :=
  priority_bounds 3 50 ⟨0, 1, 5/2, 0⟩ (by show (0 : ℤ) ≤ 0; omega)
    (by norm_num) (by norm_num)

/-- Counterexample for C9: with the fractional prior interval `1.1` and
ease `1.3`, a successful third review rounds `1.43` down to interval `1`,
which is strictly smaller than the prior interval. -/
theorem interval_shrink_counterexample :
    (calculateNextReview 0 (some ⟨0, 11/10, 13/10, 2⟩) ⟨3, none, true⟩).interval
      < (⟨0, 11/10, 13/10, 2⟩ : ReviewSchedule).interval := by
  simp only [calculateNextReview, jsRound, addDays]
  norm_num

/-- Amended C9: when the prior interval is an integer `n ≥ 1`, the ease
factor is at least 1.3, and repetitions are at least 2, a successful review
never shrinks the interval. -/
theorem interval_nondecreasing (today : ℚ) (s : ReviewSchedule) (r : ReviewResult)
    (n : ℤ) (hn : s.interval = (n : ℚ)) (hn1 : 1 ≤ n)
    (he : (13 : ℚ)/10 ≤ s.easeFactor) (hrep : 2 ≤ s.repetitions)
    (hq : 3 ≤ r.quality) (hc : r.isCorrect = true) :
    s.interval ≤ (calculateNextReview today (some s) r).interval := by
  rw [calcNext_success today s r hq hc]
  have h1 : s.repetitions + 1 ≠ 1 := by omega
  have h2 : s.repetitions + 1 ≠ 2 := by omega
  simp only [h1, h2, if_false, if_neg h1, if_neg h2]
  rw [hn]
  have hnq : (1 : ℚ) ≤ (n : ℚ) := by exact_mod_cast hn1
  have hmul : (n : ℚ) * (13/10) ≤ (n : ℚ) * s.easeFactor :=
    mul_le_mul_of_nonneg_left he (by linarith)
  have key : n ≤ jsRound ((n : ℚ) * s.easeFactor) := by
    rw [jsRound, Int.le_floor]
    linarith
  exact_mod_cast key

/-- Witness for the amended C9 at integer interval 6, ease 2.5,
repetitions 2. -/
theorem interval_nondecreasing_witness :
    (⟨0, 6, 5/2, 2⟩ : ReviewSchedule).interval ≤
      (calculateNextReview 0 (some ⟨0, 6, 5/2, 2⟩) ⟨5, none, true⟩).interval :=
  interval_nondecreasing 0 ⟨0, 6, 5/2, 2⟩ ⟨5, none, true⟩ 6
    (by show (6 : ℚ) = ((6 : ℤ) : ℚ); norm_num)
    (by omega)
    (by show (13 : ℚ)/10 ≤ 5/2; norm_num)
    (by show (2 : ℤ) ≤ 2; omega)
    (by show (3 : ℚ) ≤ 5; norm_num)
    rfl

/-- Claim C10: `calculateQuality` always lands in `[0, 5]`, and its
incorrect-answer branch only returns 0, 1 or 2. -/
theorem quality_range (m : ℚ) (c : Bool) (rt : Option ℚ) :
    0 ≤ calculateQuality m c rt ∧ calculateQuality m c rt ≤ 5 ∧
    (c = false →
      calculateQuality m c rt = 0 ∨ calculateQuality m c rt = 1 ∨
      calculateQuality m c rt = 2) := by
  cases c with
  | false =>
      simp only [calculateQuality, if_pos rfl]
      split_ifs <;> norm_num
  | true =>
      have hne : ¬((true : Bool) = false) := Bool.noConfusion
      have hform : ∃ k : ℤ, calculateQuality m true rt = max 0 (min 5 k) := by
        simp only [calculateQuality, if_neg hne]
        cases rt with
        | none => exact ⟨_, rfl⟩
        | some t =>
            by_cases h0 : t = 0
            · simp only [if_pos h0]; exact ⟨_, rfl⟩
            · by_cases h3 : t < 3000
              · simp only [if_neg h0, if_pos h3]; exact ⟨_, rfl⟩
              · by_cases h10 : t > 10000
                · simp only [if_neg h0, if_neg h3, if_pos h10]; exact ⟨_, rfl⟩
                · simp only [if_neg h0, if_neg h3, if_neg h10]; exact ⟨_, rfl⟩
      obtain ⟨k, hk⟩ := hform
      rw [hk]
      refine ⟨le_max_left _ _, max_le (by omega) ((min_le_left 5 k)), fun h => ?_⟩
      exact absurd h hne

/-- Witness for C10 at mastery 30 and an incorrect answer. -/
theorem quality_range_witness :
    0 ≤ calculateQuality 30 false none ∧ calculateQuality 30 false none ≤ 5 ∧
    (calculateQuality 30 false none = 0 ∨ calculateQuality 30 false none = 1 ∨
      calculateQuality 30 false none = 2) :=
  ⟨(quality_range 30 false none).1, (quality_range 30 false none).2.1,
   (quality_range 30 false none).2.2 rfl⟩

end SpacedRepetition
